import Mathlib

/-!
Verification of the admin-dashboard booking client (polling, optimistic
edit buffer, batch save) against its natural-language specification.

The definitions below are a shallow embedding of the TypeScript source:

* `src/app/page.tsx` — `fetchBookings`, `schedulePoll`, `handleStatusChange`,
  `handleSaveChanges` (React state is passed explicitly as a `UIState`).
* `src/lib/supabase.ts` (server actions section) — `updateBookings`.
* `src/components/bookings-table.tsx` — `parseAddress`, `parseServices`,
  and the pending-edit overlay in `ExpandedBookingDetails`.
* the retry variant of `fetchBookings` (the unnamed source file with
  timeout/retry logic) — `fetchBookingsRetry`.

JavaScript `null`/`undefined` are modelled with `Option` or dedicated
constructors; `JSON.parse` (a host primitive, not part of the repository)
is modelled as an abstract fallible parser `String → Option α` where a
thrown exception corresponds to `none`.
-/

set_option autoImplicit false

namespace AdminDash

/-- Structured address, from the `Address` type in `bookings-table.tsx`.
`street2` is an optional field. -/
structure Address where
  city : String
  street : String
  street2 : Option String
  zipCode : String
  province : String
deriving DecidableEq, Repr

/-- One booked service, from the `Service` type in `bookings-table.tsx`.
JS numbers are modelled as `Int` (no claim computes with them). -/
structure Service where
  name : String
  count : Int
  price : Int
  total : Int
deriving DecidableEq, Repr

/-- The `address` column value: `string | Address | null | undefined`. -/
inductive AddressData where
  | nullv
  | undef
  | str (s : String)
  | obj (a : Address)
deriving DecidableEq, Repr

/-- The `services` column value: `string | Service[] | null | undefined`. -/
inductive ServicesData where
  | nullv
  | undef
  | str (s : String)
  | arr (l : List Service)
deriving DecidableEq, Repr

/-- One booking row, from the `Booking` type in `page.tsx` /
`bookings-table.tsx`.  `payment_status` is optional in the schema
(`payment_status?: string`); `user_id` is `string | null`. -/
structure Booking where
  id : String
  status : String
  payment_status : Option String
  agent_name : String
  agent_company : String
  agent_email : String
  agent_phone : Int
  address : AddressData
  property_size : String
  property_status : String
  preferred_date : String
  created_at : String
  total_amount : Int
  services : ServicesData
  notes : String
  user_id : Option String
deriving DecidableEq, Repr

/-- A pending edit, from `BookingUpdate` in the server actions file:
`{ id : string; status?: string; payment_status?: string }`.  A field that
the user has not overridden is `none`. -/
structure BookingUpdate where
  id : String
  status : Option String
  payment_status : Option String
deriving DecidableEq, Repr

/-- JavaScript `a || b` on an optional string `a` (absent and the empty
string are falsy) and a string default `b`. -/
def jsOr (v : Option String) (d : String) : String :=
  match v with
  | some s => if s == "" then d else s
  | none => d

/-! ### Pending-edit overlay (`ExpandedBookingDetails`, bookings-table.tsx) -/

/-- Embeds `pendingChanges.find((change) => change.id === booking.id)`. -/
def pendingChangeFor (pendingChanges : List BookingUpdate) (bookingId : String) :
    Option BookingUpdate :=
  pendingChanges.find? (fun change => change.id == bookingId)

/-- Embeds `const currentStatus = pendingChange?.status || booking.status`. -/
def currentStatus (pendingChanges : List BookingUpdate) (booking : Booking) : String :=
  jsOr ((pendingChangeFor pendingChanges booking.id).bind (fun c => c.status)) booking.status

/-- Embeds `const currentPaymentStatus = pendingChange?.payment_status || "Not Paid"`:
the fallback is the literal `"Not Paid"`, not `booking.payment_status`. -/
def currentPaymentStatus (pendingChanges : List BookingUpdate) (booking : Booking) : String :=
  jsOr ((pendingChangeFor pendingChanges booking.id).bind (fun c => c.payment_status)) "Not Paid"

/-! ### `parseAddress` / `parseServices` (bookings-table.tsx) -/

/-- The fallback address object `{ city: "", street: "", zipCode: "", province: "" }`. -/
def emptyAddress : Address :=
  { city := "", street := "", street2 := none, zipCode := "", province := "" }

/-- Embeds `parseAddress` from `bookings-table.tsx`: nullish (and the falsy empty
string) yield the empty address, objects are returned as-is, strings go
through `JSON.parse` with the empty address as the catch fallback.
`parse` abstracts `JSON.parse` (a throw is `none`). -/
def parseAddress (parse : String → Option Address) : AddressData → Address
  | .nullv => emptyAddress
  | .undef => emptyAddress
  | .obj a => a
  | .str s => if s == "" then emptyAddress else (parse s).getD emptyAddress

/-- Embeds `parseServices` from `bookings-table.tsx`: nullish (and the falsy empty
string) yield `[]`, arrays are returned as-is, strings go through
`JSON.parse` with `[]` as the catch fallback. -/
def parseServices (parse : String → Option (List Service)) : ServicesData → List Service
  | .nullv => []
  | .undef => []
  | .arr l => l
  | .str s => if s == "" then [] else (parse s).getD []

/-! ### Edit buffer (`handleStatusChange`, page.tsx) -/

/-- The two mutable status fields an edit may target. -/
inductive EditField where
  | status
  | payment_status
deriving DecidableEq, Repr

/-- The spread update `{ ...existingChange, [field]: value }`. -/
def setFieldOn (c : BookingUpdate) (f : EditField) (v : String) : BookingUpdate :=
  match f with
  | .status => { c with status := some v }
  | .payment_status => { c with payment_status := some v }

/-- The fresh entry `{ id: bookingId, [field]: value }` (the other field
is absent). -/
def newEdit (bookingId : String) (f : EditField) (v : String) : BookingUpdate :=
  match f with
  | .status => { id := bookingId, status := some v, payment_status := none }
  | .payment_status => { id := bookingId, status := none, payment_status := some v }

/-- Embeds `handleStatusChange` from page.tsx: `findIndex` on the buffer for this
booking id; if found, replace that entry by the spread-merged one; else
append a fresh entry at the end.  The recursion updates the first entry
whose id matches and otherwise appends, exactly as the
findIndex/copy/set/append code does. -/
def handleStatusChange (pending : List BookingUpdate) (bookingId : String)
    (f : EditField) (v : String) : List BookingUpdate :=
  match pending with
  | [] => [newEdit bookingId f v]
  | c :: rest =>
    if c.id == bookingId then setFieldOn c f v :: rest
    else c :: handleStatusChange rest bookingId f v

/-- One `setField`/`handleStatusChange` invocation. -/
structure EditOp where
  rowId : String
  field : EditField
  value : String
deriving DecidableEq, Repr

/-- The buffer resulting from a sequence of `handleStatusChange` calls
starting from the initial empty buffer. -/
def applyEdits (ops : List EditOp) : List BookingUpdate :=
  ops.foldl (fun p o => handleStatusChange p o.rowId o.field o.value) []

/-- Specification helper: the most recently written value for `(rowId, f)`
in a sequence of edit operations. -/
def lastWrite (ops : List EditOp) (rowId : String) (f : EditField) : Option String :=
  ((ops.filter (fun o => o.rowId == rowId && o.field == f)).getLast?).map (fun o => o.value)

/-- Specification helper: whether any operation targets `rowId`. -/
def touches (ops : List EditOp) (rowId : String) : Bool :=
  ops.any (fun o => o.rowId == rowId)

/-! ### Batch save (`updateBookings` server action and `handleSaveChanges`) -/

/-- The partial field set sent in one update request: only the two optional
status fields, never the full row (`const ( id, ...updateData ) = update`). -/
structure UpdateFields where
  status : Option String
  payment_status : Option String
deriving DecidableEq, Repr

/-- One backend update request: `.update(updateData).eq("id", id)`. -/
structure UpdateRequest where
  id : String
  fields : UpdateFields
deriving DecidableEq, Repr

/-- The request built for one pending edit: its row identifier plus the
update object containing every field of the edit except `id`. -/
def requestOf (u : BookingUpdate) : UpdateRequest :=
  { id := u.id, fields := { status := u.status, payment_status := u.payment_status } }

/-- The requests issued by `updateBookings`: one per pending edit, each
produced independently from its own edit (`updates.map`). -/
def issuedRequests (updates : List BookingUpdate) : List UpdateRequest :=
  updates.map requestOf

/-- Success toast text of `updateBookings`. -/
def successMessage (n : Nat) : String :=
  "Successfully updated " ++ toString n ++ " booking(s)"

/-- The generic failure message of `updateBookings`. -/
def saveFailureMessage : String :=
  "Failed to update bookings. Please try again."

/-- Result of the `updateBookings` server action, including whether
`revalidatePath("/")` ran (the refresh signal). -/
structure SaveOutcome where
  success : Bool
  message : String
  revalidated : Bool
deriving DecidableEq, Repr

/-- Embeds `updateBookings` from the server actions file: every update is mapped
to its own request; `Promise.all` succeeds iff every request succeeds, in
which case `revalidatePath("/")` runs and the success message reports the
count; any rejection lands in the catch block, which returns the generic
failure message without revalidating.  `backend` abstracts the per-request
outcome of the database capability. -/
def updateBookings (backend : UpdateRequest → Bool) (updates : List BookingUpdate) :
    SaveOutcome :=
  if (issuedRequests updates).all backend then
    { success := true, message := successMessage updates.length, revalidated := true }
  else
    { success := false, message := saveFailureMessage, revalidated := false }

/-- Embeds `handleSaveChanges` from page.tsx, returning the new pending buffer and
whether the refresh signal (`revalidatePath`) was emitted: early return on
an empty buffer; on `result.success` the buffer is cleared; otherwise it is
left untouched. -/
def handleSaveChanges (backend : UpdateRequest → Bool) (pending : List BookingUpdate) :
    List BookingUpdate × Bool :=
  if pending.length == 0 then (pending, false)
  else
    let r := updateBookings backend pending
    (if r.success then [] else pending, r.revalidated)

/-! ### Data fetcher state model (`fetchBookings`, page.tsx) -/

/-- The React state touched by `fetchBookings` and `schedulePoll`, passed
explicitly.  `lastUpdated` is an optional timestamp (a `Nat` stands for a
`Date`); `previousBookingCount` is the `useRef` counter used for delta
detection. -/
structure UIState where
  bookings : List Booking
  loading : Bool
  refreshing : Bool
  lastUpdated : Option Nat
  error : Option String
  newBookingsCount : Nat
  previousBookingCount : Nat
deriving DecidableEq, Repr

/-- How one backend `list` call resolves: a response carrying `data`
(possibly null), a response carrying a supabase error, or a thrown
exception (timeout or connection failure). -/
inductive FetchOutcome where
  | success (data : Option (List Booking))
  | backendErr (msg : String)
  | thrown (msg : String)
deriving DecidableEq, Repr

/-- What one `fetchBookings` run produces: the updated UI state, the
JS return value (`data` on success, `undefined` otherwise), and the
new-bookings toast payload if the notification fired. -/
structure FetchStep where
  state : UIState
  returned : Option (List Booking)
  toastNewBookings : Option Nat
deriving DecidableEq, Repr

/-- Error text set when supabase returns an error (page.tsx). -/
def loadFailedMessage : String := "Failed to load bookings. Please try again."

/-- Error text set by the catch block (page.tsx). -/
def unexpectedErrorMessage : String := "An unexpected error occurred. Please try again."

/-- Embeds `fetchBookings` from page.tsx as a state transformer: the
loading/refreshing/error prologue, the supabase call, the
new-bookings delta check guarded by `previousBookingCount.current > 0`,
the counter update, the non-silent `setBookings`/`setLastUpdated`, and the
`finally` block that clears the spinners when not silent. -/
def fetchBookings (isManualRefresh silent : Bool) (outcome : FetchOutcome)
    (now : Nat) (s : UIState) : FetchStep :=
  let s1 :=
    if isManualRefresh then { s with refreshing := true }
    else if s.lastUpdated == none && !silent then { s with loading := true }
    else s
  let s2 := if !silent then { s1 with error := none } else s1
  match outcome with
  | .backendErr _ =>
    let s3 := if !silent then { s2 with error := some loadFailedMessage } else s2
    let s4 := if !silent then { s3 with loading := false, refreshing := false } else s3
    { state := s4, returned := none, toastNewBookings := none }
  | .thrown _ =>
    let s3 := if !silent then { s2 with error := some unexpectedErrorMessage } else s2
    let s4 := if !silent then { s3 with loading := false, refreshing := false } else s3
    { state := s4, returned := none, toastNewBookings := none }
  | .success data =>
    let toast :=
      match data with
      | some d =>
        if 0 < s2.previousBookingCount && s2.previousBookingCount < d.length then
          some (d.length - s2.previousBookingCount)
        else none
      | none => none
    let s3 :=
      match toast with
      | some n => { s2 with newBookingsCount := n }
      | none => s2
    let s4 := { s3 with previousBookingCount := (data.getD []).length }
    let s5 :=
      if !silent then { s4 with bookings := data.getD [], lastUpdated := some now } else s4
    let s6 := if !silent then { s5 with loading := false, refreshing := false } else s5
    { state := s6, returned := data, toastNewBookings := toast }

/-- The body of the `setTimeout` callback in `schedulePoll` (page.tsx):
await a silent fetch, then if it returned data and either the displayed
list is empty or the fetched data differs from it
(`JSON.stringify(newData) !== JSON.stringify(bookings)`, modelled as
structural inequality, which coincides with stringify inequality on the
fixed record shape of `Booking`), replace the displayed bookings and the
last-updated timestamp; otherwise leave the state as the silent fetch left
it. -/
def schedulePollBody (outcome : FetchOutcome) (now : Nat) (s : UIState) : UIState :=
  let r := fetchBookings false true outcome now s
  match r.returned with
  | some newData =>
    if s.bookings.length == 0 || newData != s.bookings then
      { r.state with bookings := newData, lastUpdated := some now }
    else r.state
  | none => r.state

/-! ### Poll scheduler (`schedulePoll`, page.tsx) -/

/-- Scheduler-relevant events of the UI event loop.  A `timerFire` is the
armed 30-second timeout firing, which launches a silent scheduled fetch;
`scheduledSettled` is that fetch settling, whose continuation calls
`schedulePoll()` to re-arm the timer.  An `effectRearm` is the mount
effect re-running: its dependencies are `fetchBookings` and
`schedulePoll`, whose `useCallback` identities change whenever
`lastUpdated` resp. `bookings` change (every non-silent fetch completion
does both), and the re-run unconditionally calls `schedulePoll()` again —
the cleanup clears any armed timeout and the setup arms a fresh one,
whether or not a scheduled fetch is still awaiting.  Manual fetches
(refresh button, visibility regain) do not interact with the timer. -/
inductive PollEvent where
  | timerFire
  | scheduledSettled
  | manualFetch
  | manualSettled
  | effectRearm
deriving DecidableEq, Repr

/-- Scheduler state: whether the poll timer is armed, how many scheduled
fetches are in flight, how many manual ones. -/
structure PollState where
  timerArmed : Bool
  scheduledInFlight : Nat
  manualInFlight : Nat
deriving DecidableEq, Repr

/-- One event-loop step of the scheduler, from page.tsx: a timer can fire
only while armed and launches the scheduled fetch (the timeout is spent);
when that fetch settles the callback continues and calls `schedulePoll()`,
re-arming the timer; an effect re-run clears any pending timeout and arms
a fresh one (`clearTimeout` + `setTimeout`), regardless of in-flight
fetches.  Manual fetch events touch only the manual counter. -/
def pollStep (s : PollState) : PollEvent → PollState
  | .timerFire =>
    if s.timerArmed then
      { s with timerArmed := false, scheduledInFlight := s.scheduledInFlight + 1 }
    else s
  | .scheduledSettled =>
    if 0 < s.scheduledInFlight then
      { s with scheduledInFlight := s.scheduledInFlight - 1, timerArmed := true }
    else s
  | .manualFetch => { s with manualInFlight := s.manualInFlight + 1 }
  | .manualSettled => { s with manualInFlight := s.manualInFlight - 1 }
  | .effectRearm => { s with timerArmed := true }

/-- State after `schedulePoll()` is first called from the mount effect:
timer armed, nothing in flight. -/
def pollInit : PollState :=
  { timerArmed := true, scheduledInFlight := 0, manualInFlight := 0 }

/-- Scheduler state after a sequence of events from the initial state. -/
def pollRun (events : List PollEvent) : PollState :=
  events.foldl pollStep pollInit

/-- One event-loop step of the scheduler variant in the unnamed source
file: its timeout callback is not async — it launches the silent fetch
and calls `schedulePoll()` immediately, so the next timer is armed as
soon as the current one fires, before the fetch settles; nothing happens
on settle. -/
def pollStepNoAwait (s : PollState) : PollEvent → PollState
  | .timerFire =>
    if s.timerArmed then
      { s with timerArmed := true, scheduledInFlight := s.scheduledInFlight + 1 }
    else s
  | .scheduledSettled =>
    if 0 < s.scheduledInFlight then
      { s with scheduledInFlight := s.scheduledInFlight - 1 }
    else s
  | .manualFetch => { s with manualInFlight := s.manualInFlight + 1 }
  | .manualSettled => { s with manualInFlight := s.manualInFlight - 1 }
  | .effectRearm => { s with timerArmed := true }

/-- Scheduler state of the no-await variant after a sequence of events. -/
def pollRunNoAwait (events : List PollEvent) : PollState :=
  events.foldl pollStepNoAwait pollInit

/-- A trace is rearm-safe when every effect re-run happens at a moment
with no scheduled fetch in flight (for example because the fetch that
changed the effect dependencies had already settled and no timer had
fired since). -/
def rearmSafe : PollState → List PollEvent → Prop
  | _, [] => True
  | s, e :: rest =>
    (e = PollEvent.effectRearm → s.scheduledInFlight = 0) ∧ rearmSafe (pollStep s e) rest

/-! ### Retrying fetcher (the unnamed variant of `fetchBookings`) -/

/-- The timeout bound raced against the fetch:
`setTimeout(() => reject(new Error("Request timeout")), 10000)`. -/
def requestTimeoutMs : Nat := 10000

/-- The message of the timeout rejection. -/
def requestTimeoutMessage : String := "Request timeout"

/-- How attempt number `k` (the value of `retryCount`) resolves. -/
def AttemptOracle : Type := Nat → FetchOutcome

/-- Observable trace of one `fetchBookingsRetry` run: how many attempts
were made, the backoff delays awaited between them (milliseconds), the
error surfaced to the UI (if any), and the JS return value. -/
structure FetchTrace where
  attempts : Nat
  delays : List Nat
  surfacedError : Option String
  returned : Option (List Booking)
deriving DecidableEq, Repr

/-- Error surfaced when supabase returns an error (retry variant):
`Failed to load bookings: ` plus the error message. -/
def backendErrMessage (msg : String) : String :=
  "Failed to load bookings: " ++ msg

/-- Error surfaced after retries are exhausted (retry variant):
`Connection error: ` plus the thrown message and an advice suffix. -/
def connectionErrMessage (msg : String) : String :=
  "Connection error: " ++ msg ++ ". Please check your network connection and try again."

/-- The retry variant of `fetchBookings` (unnamed source file), as the
trace of one run starting at a given `retryCount`: a supabase error
response returns at once, surfacing `backendErrMessage` unless silent; a
thrown error (timeout or connection failure) is retried while
`retryCount < 3` and not silent, awaiting `1000 * (retryCount + 1)`
milliseconds first; once retries are exhausted (or when silent) the catch
block surfaces `connectionErrMessage` unless silent. -/
def fetchBookingsRetry (silent : Bool) (attempt : AttemptOracle) (retryCount : Nat) :
    FetchTrace :=
  match attempt retryCount with
  | .success data =>
    { attempts := 1, delays := [], surfacedError := none, returned := data }
  | .backendErr msg =>
    { attempts := 1, delays := []
      surfacedError := if silent then none else some (backendErrMessage msg)
      returned := none }
  | .thrown msg =>
    if h : retryCount < 3 ∧ silent = false then
      let rest := fetchBookingsRetry silent attempt (retryCount + 1)
      { attempts := rest.attempts + 1
        delays := 1000 * (retryCount + 1) :: rest.delays
        surfacedError := rest.surfacedError
        returned := rest.returned }
    else
      { attempts := 1, delays := []
        surfacedError := if silent then none else some (connectionErrMessage msg)
        returned := none }
termination_by 3 - retryCount
decreasing_by
  omega

/-- A concrete booking whose fetched `payment_status` is `"Paid"`. -/
def samplePaidBooking : Booking :=
  { id := "b1", status := "pending", payment_status := some "Paid"
    agent_name := "A", agent_company := "C", agent_email := "a@c"
    agent_phone := 0, address := AddressData.undef, property_size := ""
    property_status := "", preferred_date := "", created_at := ""
    total_amount := 0, services := ServicesData.undef, notes := ""
    user_id := none }

/-! ## Helper lemmas -/

/-- A silent fetch leaves bookings, lastUpdated, loading, refreshing and
error untouched in every outcome. -/
theorem fetchBookings_silent_preserves (outcome : FetchOutcome) (now : Nat) (s : UIState) :
    (fetchBookings false true outcome now s).state.bookings = s.bookings ∧
    (fetchBookings false true outcome now s).state.lastUpdated = s.lastUpdated ∧
    (fetchBookings false true outcome now s).state.loading = s.loading ∧
    (fetchBookings false true outcome now s).state.refreshing = s.refreshing ∧
    (fetchBookings false true outcome now s).state.error = s.error := by
  cases outcome <;> simp [fetchBookings]
  split <;> simp

/-- The JS return value of `fetchBookings` is the fetched data on a
successful response and `undefined` otherwise. -/
theorem fetchBookings_returned (manual silent : Bool) (outcome : FetchOutcome)
    (now : Nat) (s : UIState) :
    (fetchBookings manual silent outcome now s).returned
      = (match outcome with
        | .success data => data
        | .backendErr _ => none
        | .thrown _ => none) := by
  cases outcome <;> simp [fetchBookings]

/-- Toast payload and counter update of a fetch that gets a successful
response. -/
theorem fetchBookings_success_toast (manual silent : Bool) (data : Option (List Booking))
    (now : Nat) (s : UIState) :
    (fetchBookings manual silent (.success data) now s).toastNewBookings
      = (match data with
        | some d =>
          if 0 < s.previousBookingCount ∧ s.previousBookingCount < d.length then
            some (d.length - s.previousBookingCount)
          else none
        | none => none) ∧
    (fetchBookings manual silent (.success data) now s).state.previousBookingCount
      = (data.getD []).length := by
  cases data <;>
    simp [fetchBookings, apply_ite (fun st : UIState => st.previousBookingCount)]

/-! ## Claim theorems -/

/-- Claim C1 (code bug, evaluation at the failing input): for a fetched
booking whose `payment_status` is `"Paid"` and an empty pending-edit
buffer, the expanded-details view displays `"Not Paid"` — the fetched
value is ignored, although the claim (and the comment in the source
directly above the definition) say the fetched value is displayed when no
pending edit overrides it.  The job-status field, by contrast, does fall
back to the fetched value. -/
theorem paymentStatus_display_ignores_fetched_value :
    samplePaidBooking.payment_status = some "Paid" ∧
    pendingChangeFor [] samplePaidBooking.id = none ∧
    currentPaymentStatus [] samplePaidBooking = "Not Paid" ∧
    currentPaymentStatus [] samplePaidBooking ≠ "Paid" ∧
    currentStatus [] samplePaidBooking = samplePaidBooking.status := by
  refine ⟨rfl, rfl, rfl, ?_, rfl⟩
  decide

/-- The initial UI state of the dashboard component (`useState`
initializers and `useRef(0)`). -/
def initialUIState : UIState :=
  { bookings := [], loading := true, refreshing := false, lastUpdated := none
    error := none, newBookingsCount := 0, previousBookingCount := 0 }

/-- Claim C2 (counterexample): in the initial state the recorded count is
`N = 0`; a fetch returning `M = 1` row has `M > N`, yet no new-rows
notification fires, because the delta check requires
`previousBookingCount.current > 0`.  The claim asserts a signal with count
`M - N = 1` for every prior count including the initial state. -/
theorem newRows_no_signal_on_initial_fetch :
    (fetchBookings false false
        (.success (some [samplePaidBooking])) 0 initialUIState).toastNewBookings = none ∧
    (fetchBookings false false
        (.success (some [samplePaidBooking])) 0 initialUIState).toastNewBookings
      ≠ some 1 := by
  refine ⟨rfl, ?_⟩
  decide

/-- Claim C2 (amended): for every fetch that succeeds with `M` rows when
the previously recorded count is `N`: if `N > 0` and `M > N` the
new-rows signal fires with count `M - N`; if `M ≤ N`, or `N = 0` (the
initial state), no notification fires; in all cases the recorded count
becomes `M`. -/
theorem newRows_delta_signal (manual silent : Bool) (s : UIState) (d : List Booking)
    (now : Nat) :
    (0 < s.previousBookingCount → s.previousBookingCount < d.length →
      (fetchBookings manual silent (.success (some d)) now s).toastNewBookings
        = some (d.length - s.previousBookingCount)) ∧
    (d.length ≤ s.previousBookingCount →
      (fetchBookings manual silent (.success (some d)) now s).toastNewBookings = none) ∧
    (s.previousBookingCount = 0 →
      (fetchBookings manual silent (.success (some d)) now s).toastNewBookings = none) ∧
    (fetchBookings manual silent (.success (some d)) now s).state.previousBookingCount
      = d.length := by
  have h := fetchBookings_success_toast manual silent (some d) now s
  refine ⟨fun h1 h2 => ?_, fun h1 => ?_, fun h1 => ?_, by simpa using h.2⟩
  · rw [h.1]
    simp [h1, h2]
  · rw [h.1]
    simp
    omega
  · rw [h.1]
    simp [h1]

/-- Claim C2 witness: scenario A of the spec — previous count 5, fetch
returns 7 rows, the signal fires with count 2. -/
theorem newRows_delta_signal_witness :
    (fetchBookings false true
        (.success (some (List.replicate 7 samplePaidBooking))) 0
        { initialUIState with previousBookingCount := 5 }).toastNewBookings = some 2 := by
  have h := newRows_delta_signal false true
    { initialUIState with previousBookingCount := 5 } (List.replicate 7 samplePaidBooking) 0
  have := h.1 (by simp) (by simp)
  simpa using this

/-- Claim C8: a fetch invoked in silent mode (the scheduled background
refresh, `fetchBookings(false, true)`) leaves the loading flag, the
refreshing flag and the visible error state unchanged for every outcome —
success, backend error or thrown failure. -/
theorem silent_fetch_preserves_ui_indicators (outcome : FetchOutcome) (now : Nat)
    (s : UIState) :
    (fetchBookings false true outcome now s).state.loading = s.loading ∧
    (fetchBookings false true outcome now s).state.refreshing = s.refreshing ∧
    (fetchBookings false true outcome now s).state.error = s.error := by
  have h := fetchBookings_silent_preserves outcome now s
  exact ⟨h.2.2.1, h.2.2.2.1, h.2.2.2.2⟩

/-- Claim C9: `parseAddress` and `parseServices` are total (they are plain
functions into `Address` and `List Service`), return the empty address
resp. the empty list on `null`, `undefined` and any string the JSON parser
rejects, and pass structured objects resp. arrays through unchanged —
for every abstract parser. -/
theorem parse_address_services_total (parseA : String → Option Address)
    (parseS : String → Option (List Service)) :
    parseAddress parseA AddressData.nullv = emptyAddress ∧
    parseAddress parseA AddressData.undef = emptyAddress ∧
    (∀ s, parseA s = none → parseAddress parseA (AddressData.str s) = emptyAddress) ∧
    (∀ a, parseAddress parseA (AddressData.obj a) = a) ∧
    parseServices parseS ServicesData.nullv = [] ∧
    parseServices parseS ServicesData.undef = [] ∧
    (∀ s, parseS s = none → parseServices parseS (ServicesData.str s) = []) ∧
    (∀ l, parseServices parseS (ServicesData.arr l) = l) := by
  refine ⟨rfl, rfl, fun s hs => ?_, fun a => rfl, rfl, rfl, fun s hs => ?_, fun l => rfl⟩
  · simp [parseAddress, hs]
  · simp [parseServices, hs]

/-- Claim C9 witness: with a parser that rejects every string, a malformed
string input yields the empty address and the empty service list. -/
theorem parse_address_services_total_witness :
    parseAddress (fun _ => none) (AddressData.str "oops") = emptyAddress ∧
    parseServices (fun _ => none) (ServicesData.str "oops") = [] := by
  have h := parse_address_services_total (fun _ => none) (fun _ => none)
  exact ⟨h.2.2.1 "oops" rfl, h.2.2.2.2.2.2.1 "oops" rfl⟩

/-- A concrete state in which a list of bookings is displayed and a
last-updated timestamp is set, used as counterexample input. -/
def displayedEmptyState : UIState :=
  { bookings := [], loading := false, refreshing := false, lastUpdated := some 5
    error := none, newBookingsCount := 0, previousBookingCount := 0 }

/-- Claim C10 (counterexample): with an empty displayed list and a
scheduled silent poll returning an (equally empty) list — so the JSON
serializations of the fetched and displayed data are equal — the code
still replaces the displayed bookings and the last-updated timestamp,
because the update condition is `!bookings.length || stringify differs`.
The claim asserts that equal serializations leave both unchanged. -/
theorem poll_updates_timestamp_on_empty_equal_data :
    (schedulePollBody (.success (some [])) 7 displayedEmptyState).lastUpdated = some 7 ∧
    displayedEmptyState.lastUpdated = some 5 ∧
    (schedulePollBody (.success (some [])) 7 displayedEmptyState).lastUpdated
      ≠ displayedEmptyState.lastUpdated := by
  refine ⟨rfl, rfl, ?_⟩
  decide

/-- Claim C10 (amended): when a scheduled silent poll completes with data,
the displayed bookings and the last-updated timestamp are replaced iff
the displayed list is empty or the fetched data differs from it under
JSON serialization; when the serializations are equal and the displayed
list is non-empty, both are unchanged (an empty displayed list is always
replaced, even by equal data); a poll that completes without data leaves
both unchanged. -/
theorem poll_replaces_only_on_change_or_empty (s : UIState) (now : Nat)
    (d : List Booking) :
    (s.bookings.length = 0 ∨ d ≠ s.bookings →
      (schedulePollBody (.success (some d)) now s).bookings = d ∧
      (schedulePollBody (.success (some d)) now s).lastUpdated = some now) ∧
    (s.bookings.length ≠ 0 → d = s.bookings →
      (schedulePollBody (.success (some d)) now s).bookings = s.bookings ∧
      (schedulePollBody (.success (some d)) now s).lastUpdated = s.lastUpdated) ∧
    (∀ msg, (schedulePollBody (.backendErr msg) now s).bookings = s.bookings ∧
      (schedulePollBody (.backendErr msg) now s).lastUpdated = s.lastUpdated) ∧
    (∀ msg, (schedulePollBody (.thrown msg) now s).bookings = s.bookings ∧
      (schedulePollBody (.thrown msg) now s).lastUpdated = s.lastUpdated) ∧
    ((schedulePollBody (.success none) now s).bookings = s.bookings ∧
      (schedulePollBody (.success none) now s).lastUpdated = s.lastUpdated) := by
  have hpres := fun outcome => fetchBookings_silent_preserves outcome now s
  refine ⟨fun h => ?_, fun h1 h2 => ?_, fun msg => ?_, fun msg => ?_, ?_⟩
  · have hr := fetchBookings_returned false true (.success (some d)) now s
    simp only [schedulePollBody, hr]
    have hcond : (s.bookings.length == 0 || d != s.bookings) = true := by
      rcases h with h | h
      · simp [h]
      · simp [h]
    simp [hcond]
  · have hr := fetchBookings_returned false true (.success (some d)) now s
    have hp := hpres (.success (some d))
    simp only [schedulePollBody, hr]
    have hcond : (s.bookings.length == 0 || d != s.bookings) = false := by
      simp [h1, h2]
    simp [hcond, hp.1, hp.2.1]
  · have hr := fetchBookings_returned false true (.backendErr msg) now s
    have hp := hpres (.backendErr msg)
    simp only [schedulePollBody, hr]
    exact ⟨hp.1, hp.2.1⟩
  · have hr := fetchBookings_returned false true (.thrown msg) now s
    have hp := hpres (.thrown msg)
    simp only [schedulePollBody, hr]
    exact ⟨hp.1, hp.2.1⟩
  · have hr := fetchBookings_returned false true (.success none) now s
    have hp := hpres (.success none)
    simp only [schedulePollBody, hr]
    exact ⟨hp.1, hp.2.1⟩

/-- Claim C10 witness: a poll returning a one-row list over an empty
display replaces the bookings and the timestamp. -/
theorem poll_replaces_only_on_change_or_empty_witness :
    (schedulePollBody (.success (some [samplePaidBooking])) 7 displayedEmptyState).bookings
      = [samplePaidBooking] ∧
    (schedulePollBody (.success (some [samplePaidBooking])) 7
        displayedEmptyState).lastUpdated = some 7 := by
  exact (poll_replaces_only_on_change_or_empty displayedEmptyState 7
    [samplePaidBooking]).1 (Or.inl rfl)

/-- Claim C3: with a non-empty buffer, a save that succeeds clears every
pending edit and emits the refresh signal (`revalidatePath("/")`); a save
that fails leaves the buffer exactly as it was, so the user can retry,
and does not signal a refresh. -/
theorem save_clears_buffer_on_success_keeps_on_failure
    (backend : UpdateRequest → Bool) (pending : List BookingUpdate)
    (h : pending ≠ []) :
    ((updateBookings backend pending).success = true →
      (handleSaveChanges backend pending).1 = [] ∧
      (handleSaveChanges backend pending).2 = true) ∧
    ((updateBookings backend pending).success = false →
      (handleSaveChanges backend pending).1 = pending ∧
      (handleSaveChanges backend pending).2 = false) := by
  have hlen : (pending.length == 0) = false := by
    simp [List.length_eq_zero, h]
  constructor
  · intro hs
    have hrev : (updateBookings backend pending).revalidated = true := by
      unfold updateBookings at hs ⊢
      by_cases hall : (issuedRequests pending).all backend <;> simp [hall] at hs ⊢
    simp [handleSaveChanges, hlen, hs, hrev]
  · intro hs
    have hrev : (updateBookings backend pending).revalidated = false := by
      unfold updateBookings at hs ⊢
      by_cases hall : (issuedRequests pending).all backend <;> simp [hall] at hs ⊢
    simp [handleSaveChanges, hlen, hs, hrev]

/-- Claim C3 witness: one pending edit, a backend that accepts the
request — the buffer ends empty and the refresh signal fires. -/
theorem save_clears_buffer_witness :
    (handleSaveChanges (fun _ => true)
        [{ id := "b1", status := some "confirmed", payment_status := none }]).1 = [] ∧
    (handleSaveChanges (fun _ => true)
        [{ id := "b1", status := some "confirmed", payment_status := none }]).2 = true := by
  exact (save_clears_buffer_on_success_keeps_on_failure (fun _ => true)
    [{ id := "b1", status := some "confirmed", payment_status := none }]
    (by simp)).1 rfl

/-- Claim C4: for a non-empty buffer, `updateBookings` issues exactly one
request per pending edit; request `i` carries the identifier and exactly
the overridden fields of pending edit `i` and depends on no other edit
(the requests are an elementwise map, hence order-independent between
rows); and if any individual request fails the overall result is failure
carrying the generic message. -/
theorem save_issues_independent_partial_updates (backend : UpdateRequest → Bool)
    (updates : List BookingUpdate) (h : updates ≠ []) :
    (issuedRequests updates).length = updates.length ∧
    (∀ i : Fin updates.length,
      (issuedRequests updates).get ⟨i, by simpa [issuedRequests] using i.2⟩
        = requestOf (updates.get i)) ∧
    (∀ u ∈ updates, (requestOf u).id = u.id ∧
      (requestOf u).fields.status = u.status ∧
      (requestOf u).fields.payment_status = u.payment_status) ∧
    ((∃ r ∈ issuedRequests updates, backend r = false) →
      updateBookings backend updates
        = { success := false, message := saveFailureMessage, revalidated := false }) := by
  refine ⟨by simp [issuedRequests], fun i => ?_, fun u _ => ⟨rfl, rfl, rfl⟩, fun hfail => ?_⟩
  · simp [issuedRequests]
  · have hall : (issuedRequests updates).all backend = false := by
      rcases hfail with ⟨r, hr, hb⟩
      cases hall' : (issuedRequests updates).all backend with
      | false => rfl
      | true =>
        have hc := List.all_eq_true.mp hall' r hr
        rw [hb] at hc
        exact absurd hc Bool.false_ne_true
    simp [updateBookings, hall]

/-- Claim C4 witness: two pending edits, the backend rejecting the second
request — the save fails with the generic message. -/
theorem save_issues_independent_partial_updates_witness :
    updateBookings (fun r => r.id != "b2")
        [{ id := "b1", status := some "confirmed", payment_status := none },
         { id := "b2", status := none, payment_status := some "Paid" }]
      = { success := false, message := saveFailureMessage, revalidated := false } := by
  exact (save_issues_independent_partial_updates (fun r => r.id != "b2")
    [{ id := "b1", status := some "confirmed", payment_status := none },
     { id := "b2", status := none, payment_status := some "Paid" }]
    (by simp)).2.2.2
    ⟨{ id := "b2", fields := { status := none, payment_status := some "Paid" } },
      by simp [issuedRequests, requestOf], by simp⟩

/-- Claim C5 (counterexample): on a non-silent fetch whose backend
response carries an error on every attempt, the code makes a single
attempt with no backoff delays and surfaces the failure immediately — the
backend-error class is not retried, while the claim asserts both failure
classes are retried identically with delays of 1s, 2s, 3s. -/
theorem backend_error_not_retried :
    (fetchBookingsRetry false (fun _ => .backendErr "boom") 0).attempts = 1 ∧
    (fetchBookingsRetry false (fun _ => .backendErr "boom") 0).delays = [] ∧
    (fetchBookingsRetry false (fun _ => .backendErr "boom") 0).delays
      ≠ [1000, 2000, 3000] ∧
    (fetchBookingsRetry false (fun _ => .backendErr "boom") 0).surfacedError
      = some (backendErrMessage "boom") := by
  refine ⟨?_, ?_, ?_, ?_⟩ <;> simp [fetchBookingsRetry]

/-- Claim C5 (amended): every failed attempt is classified as either a
backend error response or a thrown error (the 10-second timeout rejection
or a connection failure); in non-silent mode only thrown failures are
retried, up to 3 times with backoff delays of 1000, 2000, 3000
milliseconds before the final failure is surfaced, while a backend error
response is surfaced immediately with no retry; in silent mode a run
never surfaces an error and never retries. -/
theorem fetch_retry_policy (attempt : AttemptOracle) :
    (fetchBookingsRetry true attempt 0).surfacedError = none ∧
    (fetchBookingsRetry true attempt 0).attempts = 1 ∧
    ((∀ k, ∃ m, attempt k = FetchOutcome.thrown m) →
      (fetchBookingsRetry false attempt 0).attempts = 4 ∧
      (fetchBookingsRetry false attempt 0).delays = [1000, 2000, 3000] ∧
      ∃ m, (fetchBookingsRetry false attempt 0).surfacedError
        = some (connectionErrMessage m)) ∧
    (∀ msg, attempt 0 = FetchOutcome.backendErr msg →
      (fetchBookingsRetry false attempt 0).attempts = 1 ∧
      (fetchBookingsRetry false attempt 0).delays = [] ∧
      (fetchBookingsRetry false attempt 0).surfacedError
        = some (backendErrMessage msg)) := by
  refine ⟨?_, ?_, fun hall => ?_, fun msg h0 => ?_⟩
  · rcases h : attempt 0 with data | msg | msg <;> simp [fetchBookingsRetry, h]
  · rcases h : attempt 0 with data | msg | msg <;> simp [fetchBookingsRetry, h]
  · obtain ⟨m0, h0⟩ := hall 0
    obtain ⟨m1, h1⟩ := hall 1
    obtain ⟨m2, h2⟩ := hall 2
    obtain ⟨m3, h3⟩ := hall 3
    refine ⟨?_, ?_, m3, ?_⟩ <;> simp [fetchBookingsRetry, h0, h1, h2, h3]
  · refine ⟨?_, ?_, ?_⟩ <;> simp [fetchBookingsRetry, h0]

/-- Claim C5 witness: scenario C of the spec — the backend call times out
on every attempt; in non-silent mode the fetcher retries at 1s, 2s, 3s
before surfacing the connection failure, and a silent run surfaces
nothing. -/
theorem fetch_retry_policy_witness :
    (fetchBookingsRetry false (fun _ => .thrown requestTimeoutMessage) 0).attempts = 4 ∧
    (fetchBookingsRetry false (fun _ => .thrown requestTimeoutMessage) 0).delays
      = [1000, 2000, 3000] ∧
    (fetchBookingsRetry true (fun _ => .thrown requestTimeoutMessage) 0).surfacedError
      = none := by
  have h := fetch_retry_policy (fun _ => FetchOutcome.thrown requestTimeoutMessage)
  have h3 := h.2.2.1 (fun k => ⟨requestTimeoutMessage, rfl⟩)
  exact ⟨h3.1, h3.2.1, h.1⟩

/-- The scheduler invariant: the armed timer and the in-flight scheduled
fetches together never exceed one. -/
def pollMeasure (s : PollState) : Nat :=
  s.scheduledInFlight + (if s.timerArmed then 1 else 0)

/-- Each event-loop step preserves the scheduler invariant, provided an
effect re-run only happens while no scheduled fetch is in flight. -/
theorem pollStep_measure_le (s : PollState) (e : PollEvent)
    (h : pollMeasure s ≤ 1)
    (he : e = PollEvent.effectRearm → s.scheduledInFlight = 0) :
    pollMeasure (pollStep s e) ≤ 1 := by
  cases e <;>
    by_cases ht : s.timerArmed <;>
    by_cases hf : 0 < s.scheduledInFlight <;>
    simp [pollStep, pollMeasure, ht, hf] at h he ⊢ <;>
    omega

/-- Claim C6 (counterexample): two scheduled-timer-triggered fetches can
be in flight simultaneously.  In page.tsx: a manual fetch starts, the
poll timer fires (first scheduled fetch in flight), the manual fetch
settles — updating `bookings`/`lastUpdated`, so the mount effect re-runs
and its `schedulePoll()` call arms a fresh timer while the scheduled
fetch is still awaiting (this variant of `fetchBookings` has no timeout,
so the fetch can outlast the 30-second interval) — and that timer fires a
second scheduled fetch.  In the unnamed variant the overlap needs no
effect re-run at all: its timeout callback calls `schedulePoll()` right
after launching the fetch, so two consecutive timer fires suffice.  Both
runs end with two scheduled fetches in flight, refuting the claim that
the timer is armed only after the previous scheduled fetch settles. -/
theorem scheduled_fetch_overlap_via_effect_rearm :
    (pollRun [PollEvent.manualFetch, PollEvent.timerFire, PollEvent.manualSettled,
      PollEvent.effectRearm, PollEvent.timerFire]).scheduledInFlight = 2 ∧
    ¬ (pollRun [PollEvent.manualFetch, PollEvent.timerFire, PollEvent.manualSettled,
      PollEvent.effectRearm, PollEvent.timerFire]).scheduledInFlight ≤ 1 ∧
    (pollRunNoAwait [PollEvent.timerFire, PollEvent.timerFire]).scheduledInFlight = 2 ∧
    ¬ (pollRunNoAwait [PollEvent.timerFire, PollEvent.timerFire]).scheduledInFlight ≤ 1 := by
  refine ⟨rfl, by decide, rfl, by decide⟩

/-- Claim C6 (amended): in page.tsx the timer-callback path re-arms the
poll timer only after the previous scheduled fetch settles, so in every
execution in which the mount effect never re-runs while a scheduled fetch
is in flight (a rearm-safe trace), at most one scheduled-timer-triggered
fetch is ever in flight; manual fetch events are unconstrained.  When the
effect does re-arm during an in-flight scheduled fetch — or in the
unnamed variant, which re-arms on every timer fire before the fetch
settles — two scheduled fetches can overlap (see the counterexample). -/
theorem scheduled_no_overlap_on_rearm_safe_traces (events : List PollEvent)
    (hsafe : rearmSafe pollInit events) :
    (pollRun events).scheduledInFlight ≤ 1 := by
  have key : ∀ (evs : List PollEvent) (s : PollState),
      pollMeasure s ≤ 1 → rearmSafe s evs → pollMeasure (evs.foldl pollStep s) ≤ 1 := by
    intro evs
    induction evs with
    | nil => intro s hs _; simpa using hs
    | cons e rest ih =>
      intro s hs hsf
      exact ih (pollStep s e) (pollStep_measure_le s e hs hsf.1) hsf.2
  have h := key events pollInit (by simp [pollMeasure, pollInit]) hsafe
  unfold pollMeasure at h
  unfold pollRun
  omega

/-- Claim C6 witness: a concrete rearm-safe trace — the timer fires, the
scheduled fetch settles, the effect re-runs while nothing is in flight,
and the timer fires again — never exceeds one scheduled fetch in
flight. -/
theorem scheduled_no_overlap_witness :
    (pollRun [PollEvent.timerFire, PollEvent.scheduledSettled,
      PollEvent.effectRearm, PollEvent.timerFire]).scheduledInFlight ≤ 1 := by
  exact scheduled_no_overlap_on_rearm_safe_traces
    [PollEvent.timerFire, PollEvent.scheduledSettled,
      PollEvent.effectRearm, PollEvent.timerFire]
    (by simp [rearmSafe, pollStep, pollInit])


/-- The id of a spread-merged edit is unchanged. -/
theorem setFieldOn_id (c : BookingUpdate) (f : EditField) (v : String) :
    (setFieldOn c f v).id = c.id := by
  cases f <;> rfl

/-- Upserting an edit for `bookingId` rewrites the buffer entry found for
`bookingId` to the spread-merge of the previous entry (or a fresh one) with
the new field, and leaves the entry found for any other id unchanged. -/
theorem handleStatusChange_find? (p : List BookingUpdate) (bookingId : String)
    (f : EditField) (v : String) (q : String) :
    (handleStatusChange p bookingId f v).find? (fun c => c.id == q)
      = if q = bookingId then
          some (setFieldOn ((p.find? (fun c => c.id == bookingId)).getD
            { id := bookingId, status := none, payment_status := none }) f v)
        else p.find? (fun c => c.id == q) := by
  induction p with
  | nil =>
    by_cases hq : q = bookingId
    · subst hq
      cases f <;> simp [handleStatusChange, newEdit, setFieldOn]
    · cases f <;> simp [handleStatusChange, newEdit, hq, Ne.symm hq]
  | cons c rest ih =>
    by_cases hc : c.id = bookingId
    · by_cases hq : q = bookingId
      · subst hq
        simp [handleStatusChange, hc, List.find?_cons, setFieldOn_id]
      · have h1 : (bookingId == q) = false := by
          rw [beq_eq_false_iff_ne]
          exact fun h => hq h.symm
        have h2 : ((setFieldOn c f v).id == q) = false := by
          rw [setFieldOn_id, hc]; exact h1
        simp [handleStatusChange, hc, hq, List.find?_cons, h1, h2]
    · by_cases hq : q = bookingId
      · subst hq
        have h3 : (c.id == q) = false := by
          rw [beq_eq_false_iff_ne]; exact hc
        simp [handleStatusChange, hc, List.find?_cons, ih, h3]
      · by_cases hcq : c.id = q
        · have h3 : (c.id == q) = true := by simp [hcq]
          simp [handleStatusChange, hc, hq, List.find?_cons, h3]
        · have h3 : (c.id == q) = false := by
            rw [beq_eq_false_iff_ne]; exact hcq
          simp [handleStatusChange, hc, hq, List.find?_cons, h3, ih]

/-- Upserting keeps the identifier list unchanged when an entry for this id
exists, and appends the id at the end otherwise. -/
theorem handleStatusChange_ids (p : List BookingUpdate) (bookingId : String)
    (f : EditField) (v : String) :
    (handleStatusChange p bookingId f v).map (fun c => c.id)
      = if p.any (fun c => c.id == bookingId) then p.map (fun c => c.id)
        else p.map (fun c => c.id) ++ [bookingId] := by
  induction p with
  | nil =>
    cases f <;> simp [handleStatusChange, newEdit]
  | cons c rest ih =>
    by_cases hc : c.id = bookingId
    · simp [handleStatusChange, hc, setFieldOn_id]
    · have h3 : (c.id == bookingId) = false := by
        rw [beq_eq_false_iff_ne]; exact hc
      simp [handleStatusChange, hc, h3, ih]
      split <;> simp

/-- Appending one operation extends `touches` pointwise. -/
theorem touches_append (ops : List EditOp) (o : EditOp) (rowId : String) :
    touches (ops ++ [o]) rowId = (touches ops rowId || (o.rowId == rowId)) := by
  simp [touches]

/-- Appending one operation overrides `lastWrite` exactly at its own row
and field. -/
theorem lastWrite_append (ops : List EditOp) (o : EditOp) (rowId : String) (f : EditField) :
    lastWrite (ops ++ [o]) rowId f
      = if o.rowId = rowId ∧ o.field = f then some o.value else lastWrite ops rowId f := by
  by_cases h : o.rowId = rowId ∧ o.field = f
  · have hb : (o.rowId == rowId && o.field == f) = true := by
      simp [h.1, h.2]
    simp [lastWrite, List.filter_append, hb, h, List.getLast?_concat]
  · have hb : (o.rowId == rowId && o.field == f) = false := by
      rcases not_and_or.mp h with h1 | h1
      · have hx : (o.rowId == rowId) = false := by rw [beq_eq_false_iff_ne]; exact h1
        simp [hx]
      · have hx : (o.field == f) = false := by rw [beq_eq_false_iff_ne]; exact h1
        simp [hx]
    simp [lastWrite, List.filter_append, hb, h]

/-- A row no operation targets has no last written value for any field. -/
theorem touches_false_lastWrite (ops : List EditOp) (rowId : String) (f : EditField)
    (h : touches ops rowId = false) : lastWrite ops rowId f = none := by
  have h' := h
  simp only [touches, List.any_eq_false] at h'
  have hfil : ops.filter (fun o => o.rowId == rowId && o.field == f) = [] := by
    rw [List.filter_eq_nil_iff]
    intro o ho
    have hx : (o.rowId == rowId) = false := Bool.not_eq_true _ |>.mp (h' o ho)
    simp [hx]
  simp [lastWrite, hfil]




/-- Claim C7: starting from the empty buffer, after any sequence of
`handleStatusChange` (`setField`) calls the buffer holds at most one
pending edit per row identifier, and the entry found for each row is
exactly the record whose fields are the most recently written value per
field (a field never set for that row is absent); a row never targeted
has no entry. -/
theorem edit_buffer_merge_spec (ops : List EditOp) :
    ((applyEdits ops).map (fun c => c.id)).Nodup ∧
    ∀ rowId, (applyEdits ops).find? (fun c => c.id == rowId)
      = if touches ops rowId then
          some { id := rowId, status := lastWrite ops rowId EditField.status,
                 payment_status := lastWrite ops rowId EditField.payment_status }
        else none := by
  induction ops using List.reverseRecOn with
  | nil => constructor <;> simp [applyEdits, touches]
  | append_singleton ops o ih =>
    have happly : applyEdits (ops ++ [o])
        = handleStatusChange (applyEdits ops) o.rowId o.field o.value := by
      simp [applyEdits, List.foldl_append]
    have hany : (applyEdits ops).any (fun c => c.id == o.rowId) = touches ops o.rowId := by
      have hfind := ih.2 o.rowId
      cases ht : touches ops o.rowId
      · rw [ht] at hfind
        simp only [Bool.false_eq_true, if_false] at hfind
        rw [List.any_eq_false]
        intro c hcmem hc
        exact absurd (List.find?_eq_none.mp hfind c hcmem) (by simp [hc])
      · rw [ht] at hfind
        rw [if_pos rfl] at hfind
        rw [List.any_eq_true]
        have hmem := List.mem_of_find?_eq_some hfind
        have hp := List.find?_some hfind
        exact ⟨_, hmem, hp⟩
    constructor
    · rw [happly, handleStatusChange_ids, hany]
      cases ht : touches ops o.rowId
      · rw [if_neg Bool.false_ne_true]
        rw [List.nodup_append]
        refine ⟨ih.1, List.nodup_singleton _, ?_⟩
        intro a ha hb
        simp only [List.mem_singleton] at hb
        subst hb
        rw [List.mem_map] at ha
        obtain ⟨c, hcmem, hcid⟩ := ha
        have hc : (applyEdits ops).any (fun c => c.id == o.rowId) = true :=
          List.any_eq_true.mpr ⟨c, hcmem, by simp [hcid]⟩
        rw [hany, ht] at hc
        exact Bool.false_ne_true hc
      · rw [if_pos rfl]
        exact ih.1
    · intro rowId
      rw [happly, handleStatusChange_find?]
      by_cases hq : rowId = o.rowId
      · subst hq
        rw [if_pos rfl]
        have htt : touches (ops ++ [o]) o.rowId = true := by
          rw [touches_append]
          simp
        have hbase : ((applyEdits ops).find? (fun c => c.id == o.rowId)).getD
            { id := o.rowId, status := none, payment_status := none }
            = { id := o.rowId, status := lastWrite ops o.rowId EditField.status,
                payment_status := lastWrite ops o.rowId EditField.payment_status } := by
          have hfind := ih.2 o.rowId
          cases ht : touches ops o.rowId
          · rw [ht] at hfind
            simp only [Bool.false_eq_true, if_false] at hfind
            rw [hfind]
            simp [touches_false_lastWrite ops o.rowId _ ht]
          · rw [ht] at hfind
            rw [if_pos rfl] at hfind
            rw [hfind]
            simp
        rw [if_pos htt, hbase]
        cases hf : o.field
        · simp only [setFieldOn]
          rw [lastWrite_append, lastWrite_append,
            if_pos ⟨rfl, hf⟩,
            if_neg (by rintro ⟨-, hff⟩; rw [hf] at hff; cases hff)]
        · simp only [setFieldOn]
          rw [lastWrite_append, lastWrite_append,
            if_neg (by rintro ⟨-, hff⟩; rw [hf] at hff; cases hff),
            if_pos ⟨rfl, hf⟩]
      · rw [if_neg hq]
        have htt : touches (ops ++ [o]) rowId = touches ops rowId := by
          rw [touches_append]
          have hx : (o.rowId == rowId) = false := by
            rw [beq_eq_false_iff_ne]
            exact fun h => hq h.symm
          simp [hx]
        have hlw : ∀ f, lastWrite (ops ++ [o]) rowId f = lastWrite ops rowId f := by
          intro f
          rw [lastWrite_append, if_neg]
          rintro ⟨h1, -⟩
          exact hq h1.symm
        rw [htt, ih.2 rowId, hlw, hlw]

end AdminDash
